import Mathlib

/-!
Shallow embedding of `src/server/services/import/import.js` from
strapi-plugin-import-export-entries.

The file models JavaScript records as a dynamic `Value` type, the Strapi store
gateway (`strapi.db.query(slug).create/update`) and the schema introspection
(`getModelAttributes(slug, "relation")`) as an oracle environment `Env`, and the
three functions of the source file — `importData`, `updateOrCreate`,
`updateOrCreateRelation` — as state-passing functions that return

  * the ordered trace of store operations they issued (`List Op`),
  * the record after in-place mutation (JavaScript mutates `data` through a
    shared reference; the embedding threads the mutated value explicitly), and
  * the result (`Except JsError`), since every error propagates as a rejected
    promise.

JavaScript semantics captured explicitly: truthiness, `typeof null ===
"object"`, property reads on `null`/`undefined` throwing `TypeError`, property
reads on primitives yielding `undefined`, sloppy-mode property writes on
primitives being silently dropped, optional chaining (`entry?.id`), and `||`.
Numbers are modelled as integers (no NaN / floats are exercised by the import
logic under verification).

Concurrency: the source awaits `Promise.all` over the relation attributes
before issuing the record's own upsert, and all relation branches are started
synchronously by `relations.map(...)`. The embedding processes relation
attributes sequentially but — matching the fact that every branch is started
and runs to completion even when a sibling rejects — continues mutating after
a branch fails and keeps the first (in attribute order) error. Within one
multi-valued relation, elements are reconciled in order and processing stops at
the first failing element, which leaves the field unassigned exactly as
`Promise.all` rejection does in the source.
-/

set_option autoImplicit false

namespace ImportExport

/-- A dynamic JavaScript value: `null`, `undefined`, primitives, a plain object
(ordered association list of fields, unique keys as in a JS object literal), or
an array. -/
inductive Value where
  | null
  | undef
  | num (n : Int)
  | str (s : String)
  | bool (b : Bool)
  | obj (fields : List (String × Value))
  | arr (elems : List Value)
  deriving Repr

/-- JavaScript truthiness (`if (v)`): `null`, `undefined`, `0`, `""` and
`false` are falsy; objects and arrays (empty ones included) are truthy. -/
def truthy : Value → Bool
  | .null => false
  | .undef => false
  | .num n => n != 0
  | .str s => s != ""
  | .bool b => b
  | .obj _ => true
  | .arr _ => true

/-- First binding of key `k` in an object's field list, `undefined` when the
key is absent (JavaScript property lookup on a plain object). -/
def lookupD : List (String × Value) → String → Value
  | [], _ => .undef
  | (k', v) :: rest, k => if k' = k then v else lookupD rest k

/-- Assign key `k` in an object's field list: overwrite in place when present
(position preserved), append otherwise — JavaScript `o.k = v`. -/
def setKey : List (String × Value) → String → Value → List (String × Value)
  | [], k, v => [(k, v)]
  | (k', v') :: rest, k, v =>
    if k' = k then (k', v) :: rest else (k', v') :: setKey rest k v

/-- Errors surfaced as promise rejections: `TypeError` (property access on
`null`/`undefined`), a store-gateway error, or exhaustion of the recursion
fuel that makes the embedding total (the source recurses unboundedly on the
relation graph). -/
inductive JsError where
  | typeError
  | storeError (msg : String)
  | outOfFuel
  deriving Repr, DecidableEq

/-- JavaScript property read `v.k`: throws `TypeError` on `null`/`undefined`,
looks up plain objects, and yields `undefined` on primitives and on named
properties of arrays (no named property used by the source exists on them). -/
def getProp : Value → String → Except JsError Value
  | .null, _ => .error .typeError
  | .undef, _ => .error .typeError
  | .obj fs, k => .ok (lookupD fs k)
  | _, _ => (.ok .undef)

/-- Optional-chained property read `v?.k`: `undefined` when `v` is nullish,
otherwise the (never-throwing) property read. -/
def getPropD : Value → String → Value
  | .null, _ => .undef
  | .undef, _ => .undef
  | .obj fs, k => lookupD fs k
  | _, _ => (.undef)

/-- JavaScript property write `v.k = x`: throws `TypeError` on
`null`/`undefined`, updates plain objects, and is silently dropped on
primitives and (for the named keys the source writes) on arrays, as in the
sloppy-mode CommonJS module of the source. -/
def setProp : Value → String → Value → Except JsError Value
  | .null, _, _ => .error .typeError
  | .undef, _, _ => .error .typeError
  | .obj fs, k, v => .ok (.obj (setKey fs k v))
  | other, _, _ => .ok other

/-- One relation attribute as returned by `getModelAttributes(slug,
"relation")`: its attribute name and the target collection. -/
structure Rel where
  name : String
  target : String
  deriving Repr, DecidableEq

/-- A store operation issued to `strapi.db.query(slug)`: the argument objects
of `create({ data })` and `update({ where, data })`. -/
inductive Op where
  | create (slug : String) (data : Value)
  | update (slug : String) (whereV : Value) (data : Value)
  deriving Repr

/-- The external collaborators of the core (spec §6): schema introspection and
the store gateway, modelled as a deterministic oracle. `update` returns the
updated record, or a nullish/falsy value when no row matches (the source tests
the result with `if (!entry)`). -/
structure Env where
  rels : String → List Rel
  create : String → Value → Except JsError Value
  update : String → Value → Value → Except JsError Value

/-- Reconcile every element of a multi-valued relation in input order
(`data[relName].map((relData) => updateOrCreate(user, rel.target, relData))`
joined by `Promise.all`): concatenates the elements' store traces and stops at
the first failing element, whose error rejects the join. -/
def reconcileAll (uoc : Value → List Op × Value × Except JsError Value) :
    List Value → List Op × Except JsError (List Value)
  | [] => ([], .ok [])
  | v :: vs =>
    let r := uoc v
    match r.2.2 with
    | .error e => (r.1, .error e)
    | .ok entry =>
      let rest := reconcileAll uoc vs
      (r.1 ++ rest.1, rest.2.map (entry :: ·))

/-- `entries.map((entry) => entry.id)`: a synchronous map that throws
`TypeError` at the first nullish entry. -/
def idsOf : List Value → Except JsError (List Value)
  | [] => .ok []
  | e :: es =>
    match getProp e "id" with
    | .error err => .error err
    | .ok i =>
      match idsOf es with
      | .error err => .error err
      | .ok is => .ok (i :: is)

/-- One relation attribute's resolution, `updateOrCreateRelation(user, rel,
data)` (source lines 86–103), abstracted over the recursive reconciler `uoc`
(applied as `uoc target relData`). Returns the store trace, the record after
in-place mutation, and the branch's rejection if any:

  * audit attributes `createdBy` / `updatedBy`: `data[relName] = user.id`
    unconditionally;
  * a truthy array value: reconcile every element, then
    `data[relName] = entries.map((entry) => entry.id)`;
  * a truthy non-array object value (`typeof null === "object"` is excluded by
    the truthiness guard, as the source comments note): reconcile it, then
    `data[relName] = entry?.id || null`;
  * anything else (absent, `null`, scalar): untouched. -/
def updateOrCreateRelationAux
    (uoc : String → Value → List Op × Value × Except JsError Value)
    (user : Value) (rel : Rel) (data : Value) :
    List Op × Value × Option JsError :=
  if rel.name = "createdBy" ∨ rel.name = "updatedBy" then
    match getProp user "id" with
    | .error e => ([], data, some e)
    | .ok uid =>
      match setProp data rel.name uid with
      | .error e => ([], data, some e)
      | .ok d' => ([], d', none)
  else
    match getProp data rel.name with
    | .error e => ([], data, some e)
    | .ok v =>
      if truthy v then
        match v with
        | .arr elems =>
          let r := reconcileAll (uoc rel.target) elems
          match r.2 with
          | .error e => (r.1, data, some e)
          | .ok entries =>
            match idsOf entries with
            | .error e => (r.1, data, some e)
            | .ok ids =>
              match setProp data rel.name (.arr ids) with
              | .error e => (r.1, data, some e)
              | .ok d' => (r.1, d', none)
        | .obj gs =>
          let r := uoc rel.target (.obj gs)
          match r.2.2 with
          | .error e => (r.1, data, some e)
          | .ok entry =>
            let idv := getPropD entry "id"
            let fin := if truthy idv then idv else Value.null
            match setProp data rel.name fin with
            | .error e => (r.1, data, some e)
            | .ok d' => (r.1, d', none)
        | _ => ([], data, none)
      else ([], data, none)

/-- The fan-out over `relations.map((rel) => updateOrCreateRelation(user, rel,
data))` joined by `await Promise.all`: every branch is started (so every
branch's mutation applies, the attributes touching distinct fields), traces are
concatenated in attribute order, and the first branch error becomes the join's
rejection. -/
def processRelsAux (step : Rel → Value → List Op × Value × Option JsError) :
    List Rel → Value → List Op × Value × Option JsError
  | [], d => ([], d, none)
  | r :: rs, d =>
    let s := step r d
    let rest := processRelsAux step rs s.2.1
    (s.1 ++ rest.1, rest.2.1,
      match s.2.2 with
      | some e => some e
      | none => rest.2.2)

/-- The upsert step of `updateOrCreate` (source lines 60–77), applied to the
outcome of the relation phase. `ObjectBuilder` (an external helper) builds
`where = { id: data.id }` when `data.id` is truthy and `where = {}` otherwise,
so `!where.id` is falsy exactly when `data.id` is truthy:

  * `data.id` truthy: `update({ where, data })`; when the returned entry is
    falsy, fall back to `create({ data })`;
  * otherwise: `create({ data })` directly. -/
def upsertPhase (env : Env) (slug : String)
    (pr : List Op × Value × Option JsError) :
    List Op × Value × Except JsError Value :=
  match pr.2.2 with
  | some e => (pr.1, pr.2.1, .error e)
  | none =>
    match getProp pr.2.1 "id" with
    | .error e => (pr.1, pr.2.1, .error e)
    | .ok idv =>
      if truthy idv then
        let wh := Value.obj [("id", idv)]
        match env.update slug wh pr.2.1 with
        | .error e => (pr.1 ++ [Op.update slug wh pr.2.1], pr.2.1, .error e)
        | .ok entry =>
          if truthy entry then
            (pr.1 ++ [Op.update slug wh pr.2.1], pr.2.1, .ok entry)
          else
            match env.create slug pr.2.1 with
            | .error e =>
              (pr.1 ++ [Op.update slug wh pr.2.1, Op.create slug pr.2.1],
                pr.2.1, .error e)
            | .ok entry2 =>
              (pr.1 ++ [Op.update slug wh pr.2.1, Op.create slug pr.2.1],
                pr.2.1, .ok entry2)
      else
        match env.create slug pr.2.1 with
        | .error e => (pr.1 ++ [Op.create slug pr.2.1], pr.2.1, .error e)
        | .ok entry => (pr.1 ++ [Op.create slug pr.2.1], pr.2.1, .ok entry)

/-- `updateOrCreate(user, slug, data)` (source lines 53–78): resolve all
relation attributes of `slug` (awaiting them all), then upsert the record
itself. The `fuel` parameter makes the source's unbounded recursion on the
relation graph total; every recursive call spends one unit. -/
def updateOrCreate (env : Env) (user : Value) :
    Nat → String → Value → List Op × Value × Except JsError Value
  | 0, _, data => ([], data, .error .outOfFuel)
  | fuel + 1, slug, data =>
    upsertPhase env slug
      (processRelsAux
        (updateOrCreateRelationAux
          (fun t d => updateOrCreate env user fuel t d) user)
        (env.rels slug) data)

/-- The relation phase of `updateOrCreate env user (fuel+1) slug`, named for
the statements below. -/
def relPhase (env : Env) (user : Value) (fuel : Nat) (slug : String)
    (data : Value) : List Op × Value × Option JsError :=
  processRelsAux
    (updateOrCreateRelationAux
      (fun t d => updateOrCreate env user fuel t d) user)
    (env.rels slug) data

/-- The outcome record `catchError` returns, per its use in the source:
`{ success, error, args }`, where `args` are the arguments handed to the
wrapped function — in JavaScript a live reference to the record that the
reconciler mutates in place. -/
structure CatchRes where
  success : Bool
  error : Option JsError
  args : List Value
  deriving Repr

/-- Modelled from the spec: `catchError` (exported by `src/server/utils`, a
file not included under `src/`) is the per-record isolating wrapper of spec
§4.1/§9 — it runs the wrapped reconciliation and returns an explicit outcome
`{success: true}` on success and `{success: false, error, args}` on rejection
instead of propagating. Its `args` field, read by the source as `f.args[0]`,
holds the argument record; since the reconciler mutates that record in place
through the shared reference, the embedding stores the mutated value the
reference denotes once the attempt has finished. -/
def catchError (fn : Value → List Op × Value × Except JsError Value)
    (arg : Value) : List Op × CatchRes :=
  let r := fn arg
  match r.2.2 with
  | .ok _ => (r.1, ⟨true, none, [r.2.1]⟩)
  | .error e => (r.1, ⟨false, some e, [r.2.1]⟩)

/-- One failure entry of the report: `{ error: f.error, data: f.args[0] }`. -/
structure Failure where
  error : Option JsError
  data : Value
  deriving Repr

/-- The import report (`ImportDataRes`): the failures, in input order;
successes are not retained. -/
structure ImportRes where
  failures : List Failure
  deriving Repr

/-- `importData(dataRaw, { slug, format, user })` (source lines 25–44) after
the external parse step: `parseInputData` (an out-of-scope collaborator, spec
§6) has already produced the record sequence `data`. Each record is reconciled
inside `catchError` sequentially; the failures are then
`processed.filter((p) => !p.success).map((f) => ({ error: f.error, data:
f.args[0] }))`. Also returns the concatenated store trace. -/
def importData (env : Env) (user : Value) (slug : String) (fuel : Nat)
    (data : List Value) : List Op × ImportRes :=
  let processed :=
    data.map (fun datum =>
      catchError (fun d => updateOrCreate env user fuel slug d) datum)
  ((processed.map Prod.fst).flatten,
    ⟨((processed.map Prod.snd).filter (fun p => !p.success)).map
      (fun f => ⟨f.error, f.args.headD Value.undef⟩)⟩)

/-! ### Basic lemmas about object fields -/

theorem lookupD_setKey_self (fs : List (String × Value)) (k : String) (v : Value) :
    lookupD (setKey fs k v) k = v := by
  induction fs with
  | nil => simp [setKey, lookupD]
  | cons p rest ih =>
    by_cases h : p.1 = k
    · simp [setKey, lookupD, h]
    · simp [setKey, lookupD, h, ih]

theorem lookupD_setKey_ne (fs : List (String × Value)) (k k' : String) (v : Value)
    (h : k' ≠ k) : lookupD (setKey fs k v) k' = lookupD fs k' := by
  induction fs with
  | nil => simp [setKey, lookupD, Ne.symm h]
  | cons p rest ih =>
    obtain ⟨pk, pv⟩ := p
    by_cases hp : pk = k
    · subst hp
      simp [setKey, lookupD, Ne.symm h]
    · simp [setKey, lookupD, hp, ih]

/-! ### Lemmas about element-wise reconciliation of multi-valued relations -/

theorem reconcileAll_ok_forall₂
    (uoc : Value → List Op × Value × Except JsError Value) :
    ∀ (vs : List Value) (ops : List Op) (entries : List Value),
      reconcileAll uoc vs = (ops, .ok entries) →
      List.Forall₂ (fun v entry => (uoc v).2.2 = .ok entry) vs entries := by
  intro vs
  induction vs with
  | nil =>
    intro ops entries h
    simp only [reconcileAll, Prod.mk.injEq, Except.ok.injEq] at h
    obtain ⟨-, h2⟩ := h
    subst h2
    exact .nil
  | cons v rest ih =>
    intro ops entries h
    simp only [reconcileAll] at h
    cases hv : (uoc v).2.2 with
    | error e => rw [hv] at h; simp at h
    | ok entry =>
      rw [hv] at h
      rcases hrest : reconcileAll uoc rest with ⟨ops2, res2⟩
      rw [hrest] at h
      cases res2 with
      | error e => simp [Except.map] at h
      | ok es =>
        simp only [Except.map, Prod.mk.injEq, Except.ok.injEq] at h
        obtain ⟨-, h2⟩ := h
        subst h2
        exact .cons hv (ih ops2 es hrest)

theorem idsOf_ok_forall₂ :
    ∀ (es : List Value) (ids : List Value), idsOf es = .ok ids →
      List.Forall₂ (fun entry i => getProp entry "id" = .ok i) es ids := by
  intro es
  induction es with
  | nil =>
    intro ids h
    simp only [idsOf] at h
    cases h
    exact .nil
  | cons e rest ih =>
    intro ids h
    simp only [idsOf] at h
    cases he : getProp e "id" with
    | error err => rw [he] at h; cases h
    | ok i =>
      rw [he] at h
      cases hrest : idsOf rest with
      | error err => rw [hrest] at h; cases h
      | ok is =>
        rw [hrest] at h
        cases h
        exact .cons he (ih _ hrest)

/-- A relation value the reconciler must not recurse into: absent
(`undefined`), `null`, or a scalar — everything but a plain object or an
array. -/
def scalarOrNullish : Value → Bool
  | .obj _ => false
  | .arr _ => false
  | _ => true

theorem truthy_obj (fs : List (String × Value)) : truthy (.obj fs) = true := rfl

theorem truthy_arr (es : List Value) : truthy (.arr es) = true := rfl

/-! ### Claim theorems about `updateOrCreateRelation` -/

/-- Claim C4: for every record and every relation attribute named `createdBy`
or `updatedBy`, reconciliation sets that field of the record to the acting
user's identifier unconditionally — whatever value (nested data included) the
input held there, and whatever the recursive reconciler `uoc` would do (it is
never consulted). -/
theorem audit_relation_overwritten
    (uoc : String → Value → List Op × Value × Except JsError Value)
    (user : Value) (rel : Rel) (fs : List (String × Value)) (uid : Value)
    (hname : rel.name = "createdBy" ∨ rel.name = "updatedBy")
    (huid : getProp user "id" = .ok uid) :
    updateOrCreateRelationAux uoc user rel (.obj fs) =
      ([], .obj (setKey fs rel.name uid), none) ∧
    getProp (.obj (setKey fs rel.name uid)) rel.name = .ok uid := by
  constructor
  · simp only [updateOrCreateRelationAux, if_pos hname, huid, setProp]
  · simp [getProp, lookupD_setKey_self]

/-- Witness for C4: a record carrying nested data under `createdBy` has the
field overwritten with the actor's identifier, with no store operation and no
recursive reconciliation. -/
theorem audit_relation_overwritten_witness :
    updateOrCreateRelationAux (fun _ d => ([], d, .error .outOfFuel))
      (.obj [("id", .num 1)]) ⟨"createdBy", "admin"⟩
      (.obj [("createdBy", .obj [("id", .num 7)])]) =
      ([], .obj [("createdBy", .num 1)], none) := by
  have h := audit_relation_overwritten (fun _ d => ([], d, .error .outOfFuel))
    (.obj [("id", .num 1)]) ⟨"createdBy", "admin"⟩
    [("createdBy", .obj [("id", .num 7)])] (.num 1) (Or.inl rfl) rfl
  exact h.1

/-- Claim C8: a relation attribute (other than the audit relations) whose
value is absent, `null`, or a scalar is left untouched: the record is
unchanged, no store operation is issued, and the recursive reconciler is never
consulted — in particular `null` is not treated as a nested object even though
`typeof null === "object"`. -/
theorem relation_scalar_untouched
    (uoc : String → Value → List Op × Value × Except JsError Value)
    (user : Value) (rel : Rel) (data v : Value)
    (hname : ¬(rel.name = "createdBy" ∨ rel.name = "updatedBy"))
    (hval : getProp data rel.name = .ok v)
    (hscalar : scalarOrNullish v = true) :
    updateOrCreateRelationAux uoc user rel data = ([], data, none) := by
  simp only [updateOrCreateRelationAux, if_neg hname, hval]
  cases v <;> simp_all [truthy, scalarOrNullish]

/-- Witness for C8: an `author` relation explicitly set to `null` is left as
`null`, not recursed into. -/
theorem relation_scalar_untouched_witness :
    updateOrCreateRelationAux (fun _ d => ([], d, .error .outOfFuel))
      (.obj [("id", .num 1)]) ⟨"author", "writer"⟩
      (.obj [("author", .null)]) =
      ([], .obj [("author", .null)], none) :=
  relation_scalar_untouched (fun _ d => ([], d, .error .outOfFuel))
    (.obj [("id", .num 1)]) ⟨"author", "writer"⟩
    (.obj [("author", .null)]) .null (by simp) rfl rfl

/-- Claim C10: when a single-valued nested relation reconciles to a record
whose `id` is falsy (`0`, `""`, missing, ...), the parent's relation field is
set to `null`, not to that falsy identifier — `entry?.id || null`. -/
theorem relation_single_falsy_id_null
    (uoc : String → Value → List Op × Value × Except JsError Value)
    (user : Value) (rel : Rel) (fs : List (String × Value))
    (gs : List (String × Value)) (ops : List Op) (d' entry : Value)
    (hname : ¬(rel.name = "createdBy" ∨ rel.name = "updatedBy"))
    (hval : lookupD fs rel.name = .obj gs)
    (hrec : uoc rel.target (.obj gs) = (ops, d', .ok entry))
    (hfalsy : truthy (getPropD entry "id") = false) :
    updateOrCreateRelationAux uoc user rel (.obj fs) =
      (ops, .obj (setKey fs rel.name .null), none) := by
  simp [updateOrCreateRelationAux, if_neg hname, getProp, hval, truthy_obj,
    hrec, hfalsy, setProp]

/-- Witness for C10: a nested `author` object reconciling to a stored record
with `id: 0` leaves `author: null` on the parent. -/
theorem relation_single_falsy_id_null_witness :
    updateOrCreateRelationAux
      (fun _ _ => ([], .obj [], .ok (.obj [("id", .num 0)])))
      (.obj [("id", .num 1)]) ⟨"author", "writer"⟩
      (.obj [("author", .obj [("name", .str "a")])]) =
      ([], .obj [("author", .null)], none) :=
  relation_single_falsy_id_null
    (fun _ _ => ([], .obj [], .ok (.obj [("id", .num 0)])))
    (.obj [("id", .num 1)]) ⟨"author", "writer"⟩
    [("author", .obj [("name", .str "a")])] [("name", .str "a")]
    [] (.obj []) (.obj [("id", .num 0)]) (by simp) rfl rfl rfl

/-- Claim C7: a relation attribute holding a single nested record is replaced
by the identifier of the recursively reconciled record — or by `null`, never
`undefined`, when reconciliation yielded no record (a nullish entry). -/
theorem relation_single_resolution
    (uoc : String → Value → List Op × Value × Except JsError Value)
    (user : Value) (rel : Rel) (fs : List (String × Value))
    (gs : List (String × Value)) (ops : List Op) (d' entry : Value)
    (hname : ¬(rel.name = "createdBy" ∨ rel.name = "updatedBy"))
    (hval : lookupD fs rel.name = .obj gs)
    (hrec : uoc rel.target (.obj gs) = (ops, d', .ok entry)) :
    ∃ r, updateOrCreateRelationAux uoc user rel (.obj fs) =
        (ops, .obj (setKey fs rel.name r), none) ∧
      r ≠ .undef ∧
      ((entry = .null ∨ entry = .undef) → r = .null) ∧
      (truthy (getPropD entry "id") = true → r = getPropD entry "id") := by
  refine ⟨if truthy (getPropD entry "id") then getPropD entry "id" else .null,
    ?_, ?_, ?_, ?_⟩
  · simp [updateOrCreateRelationAux, if_neg hname, getProp, hval, truthy_obj,
      hrec, setProp]
  · by_cases ht : truthy (getPropD entry "id") = true
    · rw [if_pos ht]
      intro hu
      rw [hu] at ht
      simp [truthy] at ht
    · rw [if_neg ht]
      simp
  · intro hn
    rcases hn with h | h <;> subst h <;> simp [getPropD, truthy]
  · intro ht
    rw [if_pos ht]

/-- Witness for C7: a nested `author` record reconciling to a stored record
with `id: 42` leaves `author: 42` on the parent, and a reconciler yielding
`undefined` would leave `null`. -/
theorem relation_single_resolution_witness :
    ∃ r, updateOrCreateRelationAux
        (fun _ _ => ([], .obj [], .ok (.obj [("id", .num 42)])))
        (.obj [("id", .num 1)]) ⟨"author", "writer"⟩
        (.obj [("author", .obj [("name", .str "a")])]) =
        ([], .obj [("author", r)], none) ∧
      r ≠ .undef ∧ r = .num 42 := by
  obtain ⟨r, h1, h2, -, h4⟩ := relation_single_resolution
    (fun _ _ => ([], .obj [], .ok (.obj [("id", .num 42)])))
    (.obj [("id", .num 1)]) ⟨"author", "writer"⟩
    [("author", .obj [("name", .str "a")])] [("name", .str "a")]
    [] (.obj []) (.obj [("id", .num 42)]) (by simp) rfl rfl
  exact ⟨r, h1, h2, h4 rfl⟩

/-- Claim C6: a relation attribute holding a sequence of nested records
(the empty sequence included) is replaced by the ordered sequence of
identifiers of the recursively reconciled elements, positionally 1:1 with the
input order; an empty sequence resolves to an empty identifier sequence. -/
theorem relation_array_resolution
    (uoc : String → Value → List Op × Value × Except JsError Value)
    (user : Value) (rel : Rel) (fs : List (String × Value))
    (elems : List Value) (ops : List Op) (entries ids : List Value)
    (hname : ¬(rel.name = "createdBy" ∨ rel.name = "updatedBy"))
    (hval : lookupD fs rel.name = .arr elems)
    (hrec : reconcileAll (uoc rel.target) elems = (ops, .ok entries))
    (hids : idsOf entries = .ok ids) :
    updateOrCreateRelationAux uoc user rel (.obj fs) =
      (ops, .obj (setKey fs rel.name (.arr ids)), none) ∧
    List.Forall₂ (fun v entry => (uoc rel.target v).2.2 = .ok entry)
      elems entries ∧
    List.Forall₂ (fun entry i => getProp entry "id" = .ok i) entries ids := by
  refine ⟨?_, reconcileAll_ok_forall₂ _ _ _ _ hrec, idsOf_ok_forall₂ _ _ hids⟩
  simp [updateOrCreateRelationAux, if_neg hname, getProp, hval, truthy_arr,
    hrec, hids, setProp]

/-- Witness for C6: an empty `tags` sequence resolves to the empty identifier
sequence (stored as `[]`, neither skipped nor `null`). -/
theorem relation_array_resolution_witness :
    updateOrCreateRelationAux (fun _ d => ([], d, .error .outOfFuel))
      (.obj [("id", .num 1)]) ⟨"tags", "tag"⟩
      (.obj [("title", .str "y"), ("tags", .arr [])]) =
      ([], .obj [("title", .str "y"), ("tags", .arr [])], none) :=
  (relation_array_resolution (fun _ d => ([], d, .error .outOfFuel))
    (.obj [("id", .num 1)]) ⟨"tags", "tag"⟩
    [("title", .str "y"), ("tags", .arr [])] [] [] [] []
    (by simp) rfl rfl rfl).1

/-! ### The relation phase preserves fields that are not relation attributes -/

theorem relStep_getProp_ne
    (uoc : String → Value → List Op × Value × Except JsError Value)
    (user : Value) (rel : Rel) (d : Value) (k : String)
    (hk : k ≠ rel.name) :
    getProp (updateOrCreateRelationAux uoc user rel d).2.1 k = getProp d k := by
  have hset : ∀ (x d' : Value), setProp d rel.name x = Except.ok d' →
      getProp d' k = getProp d k := by
    intro x d' h
    cases d with
    | null => simp [setProp] at h
    | undef => simp [setProp] at h
    | obj fields =>
      simp only [setProp, Except.ok.injEq] at h
      subst h
      simp [getProp, lookupD_setKey_ne _ _ _ _ hk]
    | num n => simp only [setProp, Except.ok.injEq] at h; subst h; rfl
    | str s2 => simp only [setProp, Except.ok.injEq] at h; subst h; rfl
    | bool b => simp only [setProp, Except.ok.injEq] at h; subst h; rfl
    | arr es => simp only [setProp, Except.ok.injEq] at h; subst h; rfl
  simp only [updateOrCreateRelationAux]
  repeat' split
  all_goals try rfl
  all_goals exact hset _ _ (by assumption)

theorem processRelsAux_getProp_ne
    (uoc : String → Value → List Op × Value × Except JsError Value)
    (user : Value) (k : String) :
    ∀ (rels : List Rel) (d : Value), (∀ r ∈ rels, r.name ≠ k) →
      getProp
        (processRelsAux (updateOrCreateRelationAux uoc user) rels d).2.1 k =
        getProp d k := by
  intro rels
  induction rels with
  | nil => intro d h; rfl
  | cons r rs ih =>
    intro d h
    simp only [processRelsAux]
    rw [ih _ (fun r' hr' => h r' (List.mem_cons_of_mem _ hr'))]
    exact relStep_getProp_ne uoc user r d k
      (fun he => h r (List.mem_cons_self _ _) he.symm)

theorem updateOrCreate_succ (env : Env) (user : Value) (fuel : Nat)
    (slug : String) (data : Value) :
    updateOrCreate env user (fuel + 1) slug data =
      upsertPhase env slug (relPhase env user fuel slug data) := rfl

theorem relPhase_getProp_id (env : Env) (user : Value) (fuel : Nat)
    (slug : String) (data idv : Value)
    (hid : ∀ r ∈ env.rels slug, r.name ≠ "id")
    (hv : getProp data "id" = .ok idv) :
    getProp (relPhase env user fuel slug data).2.1 "id" = .ok idv := by
  rw [relPhase, processRelsAux_getProp_ne _ _ _ _ _ hid, hv]

/-! ### Claim theorems about the upsert dispatch of `updateOrCreate` -/

/-- Claim C2: for every record reaching its own upsert (relation phase
succeeded, and `id` names no relation attribute of the collection): a truthy
`record.id` makes the store see an update on `{id: record.id}` first, followed
by a create exactly when that update returned a falsy entry (no matching row);
a falsy or absent `record.id` makes the store see a create directly, with no
update for this record. -/
theorem upsert_dispatch_on_id
    (env : Env) (user : Value) (fuel : Nat) (slug : String) (data idv : Value)
    (hid : ∀ r ∈ env.rels slug, r.name ≠ "id")
    (hok : (relPhase env user fuel slug data).2.2 = none)
    (hv : getProp data "id" = .ok idv) :
    (truthy idv = true →
      (updateOrCreate env user (fuel + 1) slug data).1 =
        (relPhase env user fuel slug data).1 ++
          Op.update slug (.obj [("id", idv)])
              (relPhase env user fuel slug data).2.1 ::
            (match env.update slug (.obj [("id", idv)])
                (relPhase env user fuel slug data).2.1 with
             | .ok entry =>
               if truthy entry then []
               else [Op.create slug (relPhase env user fuel slug data).2.1]
             | .error _ => [])) ∧
    (truthy idv = false →
      (updateOrCreate env user (fuel + 1) slug data).1 =
        (relPhase env user fuel slug data).1 ++
          [Op.create slug (relPhase env user fuel slug data).2.1]) := by
  have hpres := relPhase_getProp_id env user fuel slug data idv hid hv
  rw [updateOrCreate_succ]
  constructor <;> intro ht
  · simp only [upsertPhase, hok, hpres, ht, if_true]
    cases hu : env.update slug (.obj [("id", idv)])
        (relPhase env user fuel slug data).2.1 with
    | error e => simp
    | ok entry =>
      by_cases hte : truthy entry = true
      · simp [hte]
      · rw [Bool.not_eq_true] at hte
        cases hc : env.create slug (relPhase env user fuel slug data).2.1 <;>
          simp [hte]
  · simp only [upsertPhase, hok, hpres, ht, Bool.false_eq_true, if_false]
    cases hc : env.create slug (relPhase env user fuel slug data).2.1 <;> simp

/-- Claim C5: a record's own create/update is only ever issued after every
store operation of its relation-resolution phase, and it carries the record as
mutated by that phase (all relation fields already resolved). -/
theorem relations_resolved_before_upsert
    (env : Env) (user : Value) (fuel : Nat) (slug : String) (data : Value) :
    ∃ tail, (updateOrCreate env user (fuel + 1) slug data).1 =
        (relPhase env user fuel slug data).1 ++ tail ∧
      ∀ op ∈ tail,
        op = Op.create slug (relPhase env user fuel slug data).2.1 ∨
        ∃ w, op = Op.update slug w (relPhase env user fuel slug data).2.1 := by
  rw [updateOrCreate_succ]
  cases he : (relPhase env user fuel slug data).2.2 with
  | some e => exact ⟨[], by simp [upsertPhase, he], by simp⟩
  | none =>
    cases hg : getProp (relPhase env user fuel slug data).2.1 "id" with
    | error e => exact ⟨[], by simp [upsertPhase, he, hg], by simp⟩
    | ok idv =>
      by_cases ht : truthy idv = true
      · cases hu : env.update slug (.obj [("id", idv)])
            (relPhase env user fuel slug data).2.1 with
        | error e =>
          refine ⟨[Op.update slug (.obj [("id", idv)])
            (relPhase env user fuel slug data).2.1],
            by simp [upsertPhase, he, hg, ht, hu], ?_⟩
          intro op hop
          simp only [List.mem_singleton] at hop
          subst hop
          exact Or.inr ⟨_, rfl⟩
        | ok entry =>
          by_cases hte : truthy entry = true
          · refine ⟨[Op.update slug (.obj [("id", idv)])
              (relPhase env user fuel slug data).2.1],
              by simp [upsertPhase, he, hg, ht, hu, hte], ?_⟩
            intro op hop
            simp only [List.mem_singleton] at hop
            subst hop
            exact Or.inr ⟨_, rfl⟩
          · rw [Bool.not_eq_true] at hte
            refine ⟨[Op.update slug (.obj [("id", idv)])
                (relPhase env user fuel slug data).2.1,
              Op.create slug (relPhase env user fuel slug data).2.1], ?_, ?_⟩
            · cases hc : env.create slug
                  (relPhase env user fuel slug data).2.1 <;>
                simp [upsertPhase, he, hg, ht, hu, hte, hc]
            · intro op hop
              simp only [List.mem_cons, List.not_mem_nil, or_false] at hop
              rcases hop with hop | hop
              · subst hop
                exact Or.inr ⟨_, rfl⟩
              · subst hop
                exact Or.inl rfl
      · rw [Bool.not_eq_true] at ht
        refine ⟨[Op.create slug (relPhase env user fuel slug data).2.1],
          ?_, ?_⟩
        · cases hc : env.create slug (relPhase env user fuel slug data).2.1 <;>
            simp [upsertPhase, he, hg, ht, hc]
        · intro op hop
          simp only [List.mem_singleton] at hop
          subst hop
          exact Or.inl rfl

/-! ### Concrete store environments used by witnesses and counterexamples -/

/-- The importing actor: a user whose identifier is `1`. -/
def userA : Value := .obj [("id", .num 1)]

/-- A store whose `article` collection has the audit relation `createdBy` and
whose `create` always fails: the record is mutated in place before its own
upsert rejects. -/
def envBoom : Env where
  rels := fun s => if s = "article" then [⟨"createdBy", "admin"⟩] else []
  create := fun _ _ => .error (.storeError "boom")
  update := fun _ _ _ => (.ok .undef)

/-- A relation-free collection over a store whose `update` finds no row
(returns `undefined`), so an upsert with a truthy `id` falls back to create. -/
def envMiss : Env where
  rels := fun _ => []
  create := fun _ d => .ok (.obj [("id", .num 9), ("saved", d)])
  update := fun _ _ _ => (.ok .undef)

/-- Witness for C2: a record `{id: 5}` is first sent as an update on
`{id: 5}`; the update misses, so a create follows. -/
theorem upsert_dispatch_on_id_witness :
    truthy (Value.num 5) = true ∧
    (updateOrCreate envMiss userA 1 "collection" (.obj [("id", .num 5)])).1 =
      [Op.update "collection" (.obj [("id", .num 5)]) (.obj [("id", .num 5)]),
        Op.create "collection" (.obj [("id", .num 5)])] := by
  have h := upsert_dispatch_on_id envMiss userA 0 "collection"
    (.obj [("id", .num 5)]) (.num 5) (by simp [envMiss]) rfl rfl
  exact ⟨rfl, by simpa using h.1 rfl⟩

/-! ### The batch coordinator `importData` -/

/-- The failure entry `importData` records for one input record, if any: the
record fails exactly when its reconciliation rejects, and the recorded data is
the record as mutated by that reconciliation. -/
def failOf (env : Env) (user : Value) (slug : String) (fuel : Nat)
    (d : Value) : Option Failure :=
  match (updateOrCreate env user fuel slug d).2.2 with
  | .error e => some ⟨some e, (updateOrCreate env user fuel slug d).2.1⟩
  | .ok _ => none

/-- Whether one record's reconciliation rejects. -/
def reconcileFails (env : Env) (user : Value) (slug : String) (fuel : Nat)
    (d : Value) : Bool :=
  match (updateOrCreate env user fuel slug d).2.2 with
  | .error _ => true
  | .ok _ => false

/-- The record after its (possibly failed) reconciliation mutated it in
place. -/
def reconcileMutated (env : Env) (user : Value) (slug : String) (fuel : Nat)
    (d : Value) : Value :=
  (updateOrCreate env user fuel slug d).2.1

theorem importData_cons (env : Env) (user : Value) (slug : String)
    (fuel : Nat) (d : Value) (ds : List Value) :
    importData env user slug fuel (d :: ds) =
      ((updateOrCreate env user fuel slug d).1 ++
          (importData env user slug fuel ds).1,
        ⟨(match (updateOrCreate env user fuel slug d).2.2 with
          | .error e =>
            [⟨some e, (updateOrCreate env user fuel slug d).2.1⟩]
          | .ok _ => ([] : List Failure)) ++
          (importData env user slug fuel ds).2.failures⟩) := by
  cases hr : (updateOrCreate env user fuel slug d).2.2 <;>
    simp [importData, catchError, hr]

theorem importData_failures_eq (env : Env) (user : Value) (slug : String)
    (fuel : Nat) (data : List Value) :
    (importData env user slug fuel data).2.failures =
      data.filterMap (failOf env user slug fuel) := by
  induction data with
  | nil => rfl
  | cons d ds ih =>
    rw [importData_cons]
    simp only [List.filterMap_cons]
    cases hr : (updateOrCreate env user fuel slug d).2.2 <;>
      simp [failOf, hr, ih]

theorem importData_ops_eq (env : Env) (user : Value) (slug : String)
    (fuel : Nat) (data : List Value) :
    (importData env user slug fuel data).1 =
      (data.map (fun d => (updateOrCreate env user fuel slug d).1)).flatten := by
  induction data with
  | nil => rfl
  | cons d ds ih =>
    rw [importData_cons]
    simp [ih]

theorem importData_append (env : Env) (user : Value) (slug : String)
    (fuel : Nat) (l1 l2 : List Value) :
    importData env user slug fuel (l1 ++ l2) =
      ((importData env user slug fuel l1).1 ++
          (importData env user slug fuel l2).1,
        ⟨(importData env user slug fuel l1).2.failures ++
          (importData env user slug fuel l2).2.failures⟩) := by
  induction l1 with
  | nil => rfl
  | cons d ds ih =>
    rw [List.cons_append, importData_cons, importData_cons, ih]
    simp

/-! ### Claim theorems about the batch coordinator -/

/-- Claim C9: the report's failures are at most as many as the input records,
and they are exactly the failing records' entries in input order (the ordered
`filterMap` of the per-record failure outcome over the input sequence). -/
theorem importReport_failures_bounded_ordered (env : Env) (user : Value)
    (slug : String) (fuel : Nat) (data : List Value) :
    (importData env user slug fuel data).2.failures.length ≤ data.length ∧
    (importData env user slug fuel data).2.failures =
      data.filterMap (failOf env user slug fuel) := by
  refine ⟨?_, importData_failures_eq env user slug fuel data⟩
  rw [importData_failures_eq]
  exact List.length_filterMap_le _ _

/-- Counterexample to C1 as stated: with an always-failing `create` over a
collection whose only relation is `createdBy`, the single input record
`{title: "x", createdBy: 99}` fails, but the failure's `data` field is the
in-place-mutated record `{title: "x", createdBy: 1}` (the actor's identifier
already written), not the original input. -/
theorem importData_failure_data_not_original_cex :
    ((importData envBoom userA "article" 2
        [.obj [("title", .str "x"), ("createdBy", .num 99)]]).2.failures.map
      (fun f => f.data)) =
      [.obj [("title", .str "x"), ("createdBy", .num 1)]] ∧
    Value.obj [("title", .str "x"), ("createdBy", .num 1)] ≠
      Value.obj [("title", .str "x"), ("createdBy", .num 99)] := by
  constructor
  · rfl
  · simp

/-- Claim C1 as amended: each failure's `data` field is the failing input
record in the state the in-place mutation of its reconciliation left it —
audit fields overwritten and already-resolved relation fields replaced by
identifiers — which coincides with the original input only when the error
preceded every mutation. -/
theorem importData_failure_data_is_mutated (env : Env) (user : Value)
    (slug : String) (fuel : Nat) (data : List Value) :
    ((importData env user slug fuel data).2.failures).map (fun f => f.data) =
      (data.filter (reconcileFails env user slug fuel)).map
        (reconcileMutated env user slug fuel) := by
  rw [importData_failures_eq]
  induction data with
  | nil => rfl
  | cons d ds ih =>
    simp only [List.filterMap_cons, List.filter_cons]
    cases hr : (updateOrCreate env user fuel slug d).2.2 <;>
      simp [failOf, reconcileFails, reconcileMutated, hr, ih]

/-- Claim C3: an error in one top-level record's reconciliation is captured
as a failure entry at the batch boundary; the records before and after it are
reconciled exactly as they would be on their own (same failures, same store
operations), and a report is still produced. -/
theorem importData_isolates_record_failure (env : Env) (user : Value)
    (slug : String) (fuel : Nat) (pre post : List Value) (datum : Value)
    (e : JsError)
    (h : (updateOrCreate env user fuel slug datum).2.2 = .error e) :
    (importData env user slug fuel (pre ++ datum :: post)).2.failures =
      (importData env user slug fuel pre).2.failures ++
        ⟨some e, (updateOrCreate env user fuel slug datum).2.1⟩ ::
        (importData env user slug fuel post).2.failures ∧
    (importData env user slug fuel (pre ++ datum :: post)).1 =
      (importData env user slug fuel pre).1 ++
        (updateOrCreate env user fuel slug datum).1 ++
        (importData env user slug fuel post).1 := by
  rw [importData_append, importData_cons]
  constructor <;> simp [h, List.append_assoc]

/-- Witness for C3: the failing `{title: "x", createdBy: 99}` record between
an empty prefix and one further record yields exactly its failure entry in
place, with the sibling record still processed. -/
theorem importData_isolates_record_failure_witness :
    (importData envBoom userA "article" 2
        ([] ++ Value.obj [("title", .str "x"), ("createdBy", .num 99)] ::
          [.obj [("title", .str "z")]])).2.failures =
      (importData envBoom userA "article" 2 []).2.failures ++
        ⟨some (.storeError "boom"),
          (updateOrCreate envBoom userA 2 "article"
            (.obj [("title", .str "x"), ("createdBy", .num 99)])).2.1⟩ ::
        (importData envBoom userA "article" 2
          [.obj [("title", .str "z")]]).2.failures ∧
    (importData envBoom userA "article" 2
        ([] ++ Value.obj [("title", .str "x"), ("createdBy", .num 99)] ::
          [.obj [("title", .str "z")]])).1 =
      (importData envBoom userA "article" 2 []).1 ++
        (updateOrCreate envBoom userA 2 "article"
          (.obj [("title", .str "x"), ("createdBy", .num 99)])).1 ++
        (importData envBoom userA "article" 2 [.obj [("title", .str "z")]]).1 :=
  importData_isolates_record_failure envBoom userA "article" 2 []
    [.obj [("title", .str "z")]]
    (.obj [("title", .str "x"), ("createdBy", .num 99)])
    (.storeError "boom") rfl

end ImportExport
